import Mathlib

/-!
Verification development for the groupscholar-touchpoint-gap-audit
aggregation core (src/main.go).

Modelling conventions for the shallow embedding:

* A Go `time.Time` is modelled as an `Int`: the number of seconds since the
  Unix epoch, in UTC.  Go's zero time (0001-01-01T00:00:00Z, the value for
  which `IsZero()` returns true) is the constant `goZeroTime`.  Note that the
  zero time is itself a parseable date: `parseDate("0001-01-01")` succeeds in
  Go and returns exactly the zero value.
* `dateOnly` (main.go:1533) truncates a time to midnight, i.e. floors to a
  multiple of 86400 seconds; the Go zero value is returned unchanged (it is
  already midnight-aligned).
* All the day-difference computations in the source
  (`delta.Hours() / 24` converted with Go's truncating `int(...)`) are applied
  to differences of midnight-aligned values, hence are exact whole-day
  divisions; they are modelled with `Int.tdiv` (truncation toward zero,
  matching Go's `int` conversion and Go integer division).
* Go `float64` results (`round1`, averages) are modelled exactly over `ℚ`,
  with `math.Round` modelled as round-half-away-from-zero, which is its
  documented behaviour.
* Rows arrive already parsed: a `Row` carries `date : Option Int`, where
  `none` models a date string that `parseDate` (main.go:1454) rejects.
  `parseDate` retains time-of-day components for the datetime layouts, so a
  parsed date is an arbitrary instant, not necessarily midnight-aligned.
* The per-entity map `stats` (a Go `map[string]*ScholarStats`) is modelled as
  an association list in first-insertion order with in-place update
  (`upsertStats`), which preserves key uniqueness.  Go randomizes map
  iteration order, and `buildReport` iterates that map to emit summaries
  (main.go:375) before an unstable `sort.Slice` (main.go:433); the iteration
  order is therefore an explicit `order : List String` parameter of
  `buildReportWithOrder`, and `buildReport` instantiates it with the
  insertion order.  Any permutation of the keys is an admissible order.
-/

namespace GapAudit

/-- Seconds per day. -/
def secPerDay : Int := 86400

/-- Go's zero `time.Time` (0001-01-01T00:00:00Z) as Unix seconds. -/
def goZeroTime : Int := -62135596800

/-- Model of `dateOnly` (main.go:1533): truncate an instant to midnight.
The zero time is returned unchanged (and is itself midnight-aligned). -/
def dateOnly (t : Int) : Int :=
  if t = goZeroTime then t else secPerDay * Int.fdiv t secPerDay

/-- Model of `AddDate(0, 0, n)` on a UTC time: add `n` whole days. -/
def addDays (t n : Int) : Int := t + n * secPerDay

/-- Model of `int(delta.Hours() / 24)`: exact on whole-day multiples,
truncating toward zero like Go's `int` conversion. -/
def wholeDays (delta : Int) : Int := Int.tdiv delta secPerDay

/-- Round to the nearest integer, halves away from zero: the documented
behaviour of Go's `math.Round`. -/
def roundHalfAwayFromZero (x : ℚ) : Int :=
  if 0 ≤ x then ⌊x + 1 / 2⌋ else ⌈x - 1 / 2⌉

/-- Model of `round1` (main.go:539): `math.Round(value*10) / 10`. -/
def round1 (x : ℚ) : ℚ := (roundHalfAwayFromZero (x * 10) : ℚ) / 10

/-- An input row after header mapping and field extraction: `scholarID` and
the other string fields are already trimmed (`getValue`, main.go:1526), and
`date` is the result of `parseDate` (`none` = unparseable or empty). -/
structure Row where
  scholarID : String
  date : Option Int
  program : String
  channel : String
  status : String
  deriving DecidableEq

/-- Model of `ScholarStats` (main.go:29): the per-entity accumulator.
`channels` is the channel histogram (a Go map, modelled as an association
list in first-insertion order) and `contactDates` is the day-dedup set
(modelled as the list of already-seen `dateOnly` values). -/
structure ScholarStats where
  scholarID : String
  program : String
  lastChannel : String
  lastStatus : String
  lastContact : Int
  contactCount : Nat
  firstContact : Int
  channels : List (String × Nat)
  contacts : List Int
  contactDates : List Int
  deriving DecidableEq

/-- A fresh accumulator, as created at main.go:327: string fields empty,
times at the Go zero value, collections empty. -/
def newStats (id : String) : ScholarStats :=
  { scholarID := id, program := "", lastChannel := "", lastStatus := "",
    lastContact := goZeroTime, contactCount := 0, firstContact := goZeroTime,
    channels := [], contacts := [], contactDates := [] }

/-- Lookup in the accumulator association list. -/
def lookupStats : List (String × ScholarStats) → String → Option ScholarStats
  | [], _ => none
  | (k, v) :: rest, id => if k = id then some v else lookupStats rest id

/-- Replace the entry for `id` in place, or append it; keys stay unique and
first-insertion order is preserved. -/
def upsertStats : List (String × ScholarStats) → String → ScholarStats →
    List (String × ScholarStats)
  | [], id, sch => [(id, sch)]
  | (k, v) :: rest, id, sch =>
      if k = id then (k, sch) :: rest else (k, v) :: upsertStats rest id sch

/-- Increment a histogram entry (`scholar.Channels[channel]++`,
main.go:358), creating it at count 1 if absent. -/
def bumpCount : List (String × Nat) → String → List (String × Nat)
  | [], key => [(key, 1)]
  | (k, n) :: rest, key =>
      if k = key then (k, n + 1) :: rest else (k, n) :: bumpCount rest key

/-- Model of the per-scholar update in the ingestion loop
(main.go:333-364), after the program-stickiness update: the day-dedup
branch (merely refreshing the `last*` fields when the duplicate is
chronologically on-or-after the current last contact), else the common
path (count, interval history, first contact, channel histogram, and the
strictly-after `last*` update). -/
def updateScholar (dedupeDay : Bool) (sch : ScholarStats) (d : Int)
    (channel status : String) : ScholarStats :=
  if dedupeDay ∧ dateOnly d ∈ sch.contactDates then
    if sch.lastContact = goZeroTime ∨ d > sch.lastContact ∨ d = sch.lastContact then
      { sch with lastContact := d, lastChannel := channel, lastStatus := status }
    else sch
  else
    let sch1 := if dedupeDay then
        { sch with contactDates := sch.contactDates ++ [dateOnly d] } else sch
    let sch2 := { sch1 with contactCount := sch1.contactCount + 1,
                            contacts := sch1.contacts ++ [d] }
    let sch3 := if sch2.firstContact ≠ goZeroTime then
        (if d < sch2.firstContact then { sch2 with firstContact := d } else sch2)
      else { sch2 with firstContact := d }
    let sch4 := if channel ≠ "" then
        { sch3 with channels := bumpCount sch3.channels channel } else sch3
    if sch4.lastContact = goZeroTime ∨ d > sch4.lastContact then
      { sch4 with lastContact := d, lastChannel := channel, lastStatus := status }
    else sch4

/-- The mutable state of the ingestion loop (main.go:278-280). -/
structure IngestState where
  stats : List (String × ScholarStats)
  invalidRows : Nat
  futureRows : Nat
  deriving DecidableEq

/-- One iteration of the row loop (main.go:283-365).  `asOfDate` is the
date-only as-of value; note that the future check at main.go:307 compares
the raw parsed date (time-of-day retained) against it. -/
def processRow (asOfDate : Int) (dedupeDay : Bool) (st : IngestState)
    (row : Row) : IngestState :=
  if row.scholarID = "" then { st with invalidRows := st.invalidRows + 1 }
  else
    match row.date with
    | none => { st with invalidRows := st.invalidRows + 1 }
    | some parsedDate =>
      if parsedDate > asOfDate then { st with futureRows := st.futureRows + 1 }
      else
        let scholar0 := (lookupStats st.stats row.scholarID).getD (newStats row.scholarID)
        let scholar1 := if row.program ≠ "" ∧ scholar0.program = "" then
            { scholar0 with program := row.program } else scholar0
        let scholar2 := updateScholar dedupeDay scholar1 parsedDate row.channel row.status
        { st with stats := upsertStats st.stats row.scholarID scholar2 }

/-- The whole ingestion loop, folded over the rows in input order. -/
def ingest (rows : List Row) (asOfDate : Int) (dedupeDay : Bool) : IngestState :=
  rows.foldl (processRow asOfDate dedupeDay) ⟨[], 0, 0⟩

/-- Model of `gapDays` (main.go:596). -/
def gapDays (asOf lastContact : Int) : Int :=
  if lastContact = goZeroTime then 0
  else
    let asOfDate := dateOnly asOf
    let lastDate := dateOnly lastContact
    if lastDate > asOfDate then 0 else wholeDays (asOfDate - lastDate)

/-- Model of `gapTier` (main.go:609). -/
def gapTier (gap cadenceDays dueWindowDays : Int) : String :=
  if gap ≤ cadenceDays then "on_track"
  else if gap ≤ cadenceDays + dueWindowDays then "due_soon"
  else if gap ≤ cadenceDays * 2 then "overdue"
  else "critical"

/-- Model of `missedCadences` (main.go:622); Go `/` on positive operands
truncates toward zero. -/
def missedCadences (gap cadenceDays : Int) : Int :=
  if cadenceDays ≤ 0 then 0
  else if gap ≤ cadenceDays then 0
  else Int.tdiv (gap - cadenceDays + cadenceDays - 1) cadenceDays

/-- Sum of whole-day differences between consecutive list entries
(the loop at main.go:561-564). -/
def consecDayDiffs : List Int → Int
  | a :: b :: rest => wholeDays (b - a) + consecDayDiffs (b :: rest)
  | _ => 0

/-- The `normalized` list built by the loop at main.go:547-553: zero
values dropped, every remaining value projected to date-only; duplicates
are retained. -/
def normalizedDates (dates : List Int) : List Int :=
  (dates.filter (fun v => v ≠ goZeroTime)).map dateOnly

/-- Model of `averageIntervalDays` (main.go:543): drop zero values, take
date-only projections (duplicates retained), sort ascending, average the
consecutive whole-day differences. -/
def averageIntervalDays (dates : List Int) : ℚ :=
  if dates.length < 2 then 0
  else
    let normalized := normalizedDates dates
    if normalized.length < 2 then 0
    else
      let sorted := List.insertionSort (· ≤ ·) normalized
      let totalDays := consecDayDiffs sorted
      let intervals := normalized.length - 1
      if intervals = 0 then 0
      else round1 ((totalDays : ℚ) / (intervals : ℚ))

/-- Model of `contactsPerMonth` (main.go:572). -/
def contactsPerMonth (contactCount : Nat) (daysSinceFirst : Int) : ℚ :=
  if contactCount ≤ 0 ∨ daysSinceFirst ≤ 0 then 0
  else round1 ((contactCount : ℚ) / (daysSinceFirst : ℚ) * 30)

/-- Model of `ScholarSummary` (main.go:42).  `asOf` in `ReportSummary` is
kept as the date-only instant instead of its formatted string. -/
structure ScholarSummary where
  scholarID : String
  program : String
  lastChannel : String
  lastStatus : String
  lastContact : Int
  firstContact : Int
  nextDueDate : Int
  contactCount : Nat
  gapDays : Int
  daysPastDue : Int
  missedCadences : Int
  daysSinceFirst : Int
  avgIntervalDays : ℚ
  contactsPerMonth : ℚ
  tier : String
  deriving DecidableEq

/-- The per-scholar summary derivation (main.go:376-411). -/
def mkSummary (asOf : Int) (cadenceDays dueWindowDays : Int)
    (scholar : ScholarStats) : ScholarSummary :=
  let gap := gapDays asOf scholar.lastContact
  let missed := missedCadences gap cadenceDays
  let tier := gapTier gap cadenceDays dueWindowDays
  let nextDueDate := if scholar.lastContact = goZeroTime then goZeroTime
    else dateOnly (addDays scholar.lastContact cadenceDays)
  let daysPastDue := if scholar.lastContact = goZeroTime then 0
    else if gap > cadenceDays then gap - cadenceDays else 0
  let daysSinceFirst := if scholar.firstContact = goZeroTime then 0
    else gapDays asOf scholar.firstContact
  let avgInterval := if scholar.firstContact = goZeroTime then 0
    else averageIntervalDays scholar.contacts
  let perMonth := if scholar.firstContact = goZeroTime then 0
    else contactsPerMonth scholar.contactCount daysSinceFirst
  { scholarID := scholar.scholarID, program := scholar.program,
    lastChannel := scholar.lastChannel, lastStatus := scholar.lastStatus,
    lastContact := scholar.lastContact, firstContact := scholar.firstContact,
    nextDueDate := nextDueDate, contactCount := scholar.contactCount,
    gapDays := gap, daysPastDue := daysPastDue, missedCadences := missed,
    daysSinceFirst := daysSinceFirst, avgIntervalDays := avgInterval,
    contactsPerMonth := perMonth, tier := tier }

/-- Model of `summarizeGaps` (main.go:517): (rounded average, rounded
median, max) of a list of gap values. -/
def summarizeGaps (gaps : List Int) : ℚ × ℚ × Int :=
  match gaps with
  | [] => (0, 0, 0)
  | _ :: _ =>
    let sorted := List.insertionSort (· ≤ ·) gaps
    let maxGap := sorted.getLastD 0
    let sum := sorted.sum
    let avg : ℚ := (sum : ℚ) / (sorted.length : ℚ)
    let mid := sorted.length / 2
    let median : ℚ :=
      if sorted.length % 2 = 0 then
        ((sorted.getD (mid - 1) 0 + sorted.getD mid 0 : Int) : ℚ) / 2
      else ((sorted.getD mid 0 : Int) : ℚ)
    (round1 avg, round1 median, maxGap)

/-- One iteration of the `countTiers` switch (main.go:582-591). -/
def tierStep (acc : Nat × Nat × Nat × Nat) (e : ScholarSummary) :
    Nat × Nat × Nat × Nat :=
  if e.tier = "on_track" then (acc.1 + 1, acc.2.1, acc.2.2.1, acc.2.2.2)
  else if e.tier = "due_soon" then (acc.1, acc.2.1 + 1, acc.2.2.1, acc.2.2.2)
  else if e.tier = "overdue" then (acc.1, acc.2.1, acc.2.2.1 + 1, acc.2.2.2)
  else if e.tier = "critical" then (acc.1, acc.2.1, acc.2.2.1, acc.2.2.2 + 1)
  else acc

/-- Model of `countTiers` (main.go:579): (on_track, due_soon, overdue,
critical) counts. -/
def countTiers (entries : List ScholarSummary) : Nat × Nat × Nat × Nat :=
  entries.foldl tierStep (0, 0, 0, 0)

/-- Model of `DueBucketSummary` (main.go:100). -/
structure DueBucketSummary where
  label : String
  minDays : Option Int
  maxDays : Option Int
  count : Nat
  deriving DecidableEq

/-- Model of `RecencyBucket` (main.go:107). -/
structure RecencyBucket where
  label : String
  minDays : Option Int
  maxDays : Option Int
  count : Nat
  deriving DecidableEq

/-- The fixed due-bucket table (main.go:1598): (label, min, max). -/
def dueBucketDefs : List (String × Option Int × Option Int) :=
  [("overdue", none, some (-1)), ("due_0_7", some 0, some 7),
   ("due_8_14", some 8, some 14), ("due_15_30", some 15, some 30),
   ("due_31_60", some 31, some 60), ("due_61_plus", some 61, none),
   ("unknown", none, none)]

/-- The fixed recency-bucket table (main.go:1610). -/
def recencyBucketDefs : List (String × Option Int × Option Int) :=
  [("0_7", some 0, some 7), ("8_30", some 8, some 30),
   ("31_60", some 31, some 60), ("61_90", some 61, some 90),
   ("91_180", some 91, some 180), ("181_plus", some 181, none),
   ("unknown", none, none)]

/-- Model of `bucketDueLabel` (main.go:1622). -/
def bucketDueLabel (nextDue asOf : Int) : String :=
  if nextDue = goZeroTime then "unknown"
  else
    let daysUntil := wholeDays (dateOnly nextDue - dateOnly asOf)
    if daysUntil < 0 then "overdue"
    else if daysUntil ≤ 7 then "due_0_7"
    else if daysUntil ≤ 14 then "due_8_14"
    else if daysUntil ≤ 30 then "due_15_30"
    else if daysUntil ≤ 60 then "due_31_60"
    else "due_61_plus"

/-- Model of `bucketRecencyLabel` (main.go:1645). -/
def bucketRecencyLabel (e : ScholarSummary) : String :=
  if e.lastContact = goZeroTime then "unknown"
  else if e.gapDays ≤ 7 then "0_7"
  else if e.gapDays ≤ 30 then "8_30"
  else if e.gapDays ≤ 60 then "31_60"
  else if e.gapDays ≤ 90 then "61_90"
  else if e.gapDays ≤ 180 then "91_180"
  else "181_plus"

/-- Model of `buildDueSummary` (main.go:1540): since the labels in the
table are pairwise distinct and the label of every entry occurs in the
table, the increment-by-index loop yields, for each bucket, the number of
entries whose due label equals that bucket's label. -/
def buildDueSummary (entries : List ScholarSummary) (asOf : Int) :
    List DueBucketSummary :=
  dueBucketDefs.map fun d =>
    { label := d.1, minDays := d.2.1, maxDays := d.2.2,
      count := entries.countP fun e =>
        decide (bucketDueLabel e.nextDueDate asOf = d.1) }

/-- Model of `buildRecencySummary` (main.go:1563), same counting scheme. -/
def buildRecencySummary (entries : List ScholarSummary) :
    List RecencyBucket :=
  recencyBucketDefs.map fun d =>
    { label := d.1, minDays := d.2.1, maxDays := d.2.2,
      count := entries.countP fun e => decide (bucketRecencyLabel e = d.1) }

/-- Model of `ProgramSummary` (main.go:60). -/
structure ProgramSummary where
  program : String
  scholars : Nat
  avgGapDays : ℚ
  avgMissedCadences : ℚ
  overdueCount : Nat
  criticalCount : Nat
  onTrackCount : Nat
  dueSoonCount : Nat
  deriving DecidableEq

/-- Append a summary to its program bucket (main.go:430), creating the
bucket on first use; bucket order is first-appearance order. -/
def appendBucket (bs : List (String × List ScholarSummary)) (key : String)
    (s : ScholarSummary) : List (String × List ScholarSummary) :=
  match bs with
  | [] => [(key, [s])]
  | (k, l) :: rest =>
      if k = key then (k, l ++ [s]) :: rest
      else (k, l) :: appendBucket rest key s

/-- Model of `buildProgramSummary` (main.go:487); the per-entry tier
switch in its loop is the same counting as `countTiers`. -/
def buildProgramSummary (buckets : List (String × List ScholarSummary)) :
    List ProgramSummary :=
  buckets.map fun b =>
    let entries := b.2
    let gaps := entries.map (·.gapDays)
    let missedTotal := (entries.map (·.missedCadences)).sum
    let tc := countTiers entries
    let sg := summarizeGaps gaps
    { program := b.1, scholars := entries.length, avgGapDays := sg.1,
      avgMissedCadences := if 0 < entries.length then
          round1 ((missedTotal : ℚ) / (entries.length : ℚ)) else 0,
      onTrackCount := tc.1, dueSoonCount := tc.2.1,
      overdueCount := tc.2.2.1, criticalCount := tc.2.2.2 }

/-- Model of `ReportSummary` (main.go:71); `asOf` is kept as the date-only
instant rather than its formatted string. -/
structure ReportSummary where
  asOf : Int
  cadenceDays : Int
  dueWindowDays : Int
  totalScholars : Nat
  avgGapDays : ℚ
  medianGapDays : ℚ
  maxGapDays : Int
  avgMissedCadences : ℚ
  maxMissedCadences : Int
  onTrackCount : Nat
  dueSoonCount : Nat
  overdueCount : Nat
  criticalCount : Nat
  invalidRows : Nat
  futureRows : Nat
  deriving DecidableEq

/-- Model of `Report` (main.go:89); the two Go map fields are association
lists in first-insertion order. -/
structure Report where
  summary : ReportSummary
  programSummary : List ProgramSummary
  channelSummary : List (String × Nat)
  statusSummary : List (String × Nat)
  dueSummary : List DueBucketSummary
  recencySummary : List RecencyBucket
  topGaps : List ScholarSummary
  scholars : List ScholarSummary
  deriving DecidableEq

/-- Status histogram key (main.go:421-424). -/
def statusKeyOf (s : String) : String :=
  let k := s.trim
  if k = "" then "Unknown" else k

/-- Program bucket key (main.go:426-429). -/
def programKeyOf (p : String) : String :=
  if p = "" then "Unassigned" else p

/-- The comparator of the `sort.Slice` at main.go:433: gap days
descending.  `sort.Slice` is not stable; tie order is inherited from the
(randomized) map iteration order, which the model exposes as the `order`
parameter. -/
def gapDesc : ScholarSummary → ScholarSummary → Prop :=
  fun a b => b.gapDays ≤ a.gapDays

instance : DecidableRel gapDesc :=
  fun a b => inferInstanceAs (Decidable (b.gapDays ≤ a.gapDays))

instance : IsTotal ScholarSummary gapDesc :=
  ⟨fun a b => le_total b.gapDays a.gapDays⟩

instance : IsTrans ScholarSummary gapDesc :=
  ⟨fun _ _ _ h1 h2 => le_trans h2 h1⟩

/-- The comparator of the program-summary sort (main.go:444): overdue
plus critical, descending. -/
def progDesc : ProgramSummary → ProgramSummary → Prop :=
  fun a b => b.overdueCount + b.criticalCount ≤ a.overdueCount + a.criticalCount

instance : DecidableRel progDesc :=
  fun a b => inferInstanceAs
    (Decidable (b.overdueCount + b.criticalCount ≤ a.overdueCount + a.criticalCount))

/-- The summaries emitted by the loop at main.go:375, in the given map
iteration order. -/
def scholarSummaries (rows : List Row) (asOf cadenceDays dueWindowDays : Int)
    (dedupeDay : Bool) (order : List String) : List ScholarSummary :=
  let st := ingest rows (dateOnly asOf) dedupeDay
  order.filterMap fun id =>
    (lookupStats st.stats id).map (mkSummary asOf cadenceDays dueWindowDays)

/-- Model of `buildReport` (main.go:249-485) with the map iteration order
over `stats` made explicit.  The `sort.Slice` at main.go:433 sorts the
summaries slice in place, so the due/recency summaries, the tier counts
and the `Scholars` field all see the sorted list; the model's sort is
stable with respect to `order`, which together with the arbitrary `order`
captures the unstable-sort-of-randomly-iterated-map behaviour. -/
def buildReportWithOrder (rows : List Row)
    (asOf cadenceDays dueWindowDays topN : Int) (dedupeDay : Bool)
    (order : List String) : Report :=
  let st := ingest rows (dateOnly asOf) dedupeDay
  let summaries := scholarSummaries rows asOf cadenceDays dueWindowDays dedupeDay order
  let gapValues := summaries.map (·.gapDays)
  let missedTotal := (summaries.map (·.missedCadences)).sum
  let maxMissed := (summaries.map (·.missedCadences)).foldl max 0
  let channelSummary := summaries.foldl
    (fun m s => if s.lastChannel ≠ "" then bumpCount m s.lastChannel else m) []
  let statusSummary := summaries.foldl
    (fun m s => bumpCount m (statusKeyOf s.lastStatus)) []
  let programBuckets := summaries.foldl
    (fun bs s => appendBucket bs (programKeyOf s.program) s) []
  let sorted := List.insertionSort gapDesc summaries
  let topGaps := if topN > 0 ∧ (sorted.length : Int) > topN then
      sorted.take topN.toNat else sorted
  let programSummary0 := buildProgramSummary programBuckets
  let programSummary := if 1 < programSummary0.length then
      List.insertionSort progDesc programSummary0 else programSummary0
  let sg := summarizeGaps gapValues
  let avgMissed : ℚ := if 0 < summaries.length then
      round1 ((missedTotal : ℚ) / (summaries.length : ℚ)) else 0
  let tc := countTiers sorted
  { summary := {
      asOf := dateOnly asOf, cadenceDays := cadenceDays,
      dueWindowDays := dueWindowDays, totalScholars := sorted.length,
      avgGapDays := sg.1, medianGapDays := sg.2.1, maxGapDays := sg.2.2,
      avgMissedCadences := avgMissed, maxMissedCadences := maxMissed,
      onTrackCount := tc.1, dueSoonCount := tc.2.1,
      overdueCount := tc.2.2.1, criticalCount := tc.2.2.2,
      invalidRows := st.invalidRows, futureRows := st.futureRows },
    programSummary := programSummary, channelSummary := channelSummary,
    statusSummary := statusSummary,
    dueSummary := buildDueSummary sorted (dateOnly asOf),
    recencySummary := buildRecencySummary sorted,
    topGaps := topGaps, scholars := sorted }

/-- The first-insertion iteration order over the accumulator map. -/
def insertionOrder (st : IngestState) : List String := st.stats.map Prod.fst

/-- `buildReport` at the model's canonical iteration order (first
insertion); one admissible resolution of Go's randomized map order. -/
def buildReport (rows : List Row) (asOf cadenceDays dueWindowDays topN : Int)
    (dedupeDay : Bool) : Report :=
  buildReportWithOrder rows asOf cadenceDays dueWindowDays topN dedupeDay
    (insertionOrder (ingest rows (dateOnly asOf) dedupeDay))

/-- Written from the claim wording for C1 (not from the source): normalize
to DISTINCT date-only values, discard zero values, sort ascending, then
average consecutive day differences over (count − 1). -/
def avgIntervalDaysClaimed (dates : List Int) : ℚ :=
  let normalized := (normalizedDates dates).dedup
  if normalized.length < 2 then 0
  else
    let sorted := List.insertionSort (· ≤ ·) normalized
    round1 ((consecDayDiffs sorted : ℚ) / ((normalized.length - 1 : Nat) : ℚ))

/-- Smallest element of a list (default for the empty list). -/
def listMinD : List Int → Int → Int
  | [], dflt => dflt
  | a :: t, _ => t.foldl min a

/-- Largest element of a list (default for the empty list). -/
def listMaxD : List Int → Int → Int
  | [], dflt => dflt
  | a :: t, _ => t.foldl max a

/-- Decidable side condition: the row's date, when parseable, is strictly
after the Go zero timestamp (true for any date in year 1 or later). -/
def rowDateOK (r : Row) : Bool :=
  match r.date with
  | none => true
  | some d => decide (goZeroTime < d)

/-- All rows of the input satisfy `rowDateOK`. -/
def rowDatesAfterZero (rows : List Row) : Bool := rows.all rowDateOK

/-- Decidable per-summary property for C9: at least one contact and
non-zero last/first contact timestamps. -/
def scholarOkB (s : ScholarSummary) : Bool :=
  decide (1 ≤ s.contactCount ∧ s.lastContact ≠ goZeroTime ∧
    s.firstContact ≠ goZeroTime)

/-- Decidable per-bucket property for C9: the unknown due bucket is
empty. -/
def dueBucketOkB (b : DueBucketSummary) : Bool :=
  decide (b.label = "unknown" → b.count = 0)

/-- Decidable per-bucket property for C9: the unknown recency bucket is
empty. -/
def recencyBucketOkB (b : RecencyBucket) : Bool :=
  decide (b.label = "unknown" → b.count = 0)

/-- The invariant maintained by ingestion when every row date is after the
Go zero timestamp: every stored accumulator has at least one contact and
last/first contact strictly after the zero timestamp. -/
def statsOK (stats : List (String × ScholarStats)) : Prop :=
  ∀ id sch, lookupStats stats id = some sch →
    1 ≤ sch.contactCount ∧ goZeroTime < sch.lastContact ∧
    goZeroTime < sch.firstContact

theorem secPerDay_dvd_dateOnly (t : Int) : secPerDay ∣ dateOnly t := by
  unfold dateOnly
  split_ifs with h
  · rw [h]; exact ⟨-719162, by decide⟩
  · exact Dvd.intro _ rfl

theorem wholeDays_add (x y : Int) (hx : secPerDay ∣ x) (hy : secPerDay ∣ y) :
    wholeDays x + wholeDays y = wholeDays (x + y) := by
  obtain ⟨a, rfl⟩ := hx
  obtain ⟨b, rfl⟩ := hy
  unfold wholeDays
  rw [← mul_add, Int.mul_tdiv_cancel_left _ (by decide),
    Int.mul_tdiv_cancel_left _ (by decide), Int.mul_tdiv_cancel_left _ (by decide)]

theorem getLastD_cons_cons (a b : Int) (t : List Int) :
    (a :: b :: t).getLastD 0 = (b :: t).getLastD 0 := by
  induction t generalizing a b with
  | nil => rfl
  | cons c t ih => exact ih b c

theorem getLastD_mem (l : List Int) (h : l ≠ []) : l.getLastD 0 ∈ l := by
  induction l with
  | nil => exact absurd rfl h
  | cons a t ih =>
    cases t with
    | nil => exact List.mem_singleton.mpr rfl
    | cons b t2 =>
      rw [getLastD_cons_cons]
      exact List.mem_cons_of_mem _ (ih (by simp))

theorem consecDayDiffs_telescope (l : List Int)
    (hdvd : ∀ x ∈ l, secPerDay ∣ x) :
    consecDayDiffs l = wholeDays (l.getLastD 0 - l.headD 0) := by
  induction l with
  | nil => simp [consecDayDiffs, wholeDays]
  | cons a t ih =>
    cases t with
    | nil => simp [consecDayDiffs, wholeDays]
    | cons b t2 =>
      have h1 : consecDayDiffs (a :: b :: t2)
          = wholeDays (b - a) + consecDayDiffs (b :: t2) := rfl
      rw [h1, ih (fun x hx => hdvd x (List.mem_cons_of_mem _ hx))]
      rw [getLastD_cons_cons]
      have hda : secPerDay ∣ a := hdvd a (List.mem_cons_self _ _)
      have hdb : secPerDay ∣ b := hdvd b (List.mem_cons_of_mem _ (List.mem_cons_self _ _))
      have hdl : secPerDay ∣ (b :: t2).getLastD 0 := by
        have hmem : (b :: t2).getLastD 0 ∈ b :: t2 := getLastD_mem _ (by simp)
        exact hdvd _ (List.mem_cons_of_mem _ hmem)
      have hh1 : (b :: t2).headD 0 = b := rfl
      have hh2 : (a :: b :: t2).headD 0 = a := rfl
      rw [hh1, hh2,
        wholeDays_add (b - a) ((b :: t2).getLastD 0 - b)
          (dvd_sub hdb hda) (dvd_sub hdl hdb)]
      congr 1
      ring

theorem foldl_min_mem (t : List Int) (a : Int) : t.foldl min a ∈ a :: t := by
  induction t generalizing a with
  | nil => exact List.mem_singleton.mpr rfl
  | cons b t ih =>
    have h := ih (min a b)
    rcases List.mem_cons.mp h with h1 | h1
    · rcases min_choice a b with h2 | h2 <;> rw [List.foldl_cons, h1, h2]
      · exact List.mem_cons_self _ _
      · exact List.mem_cons_of_mem _ (List.mem_cons_self _ _)
    · exact List.mem_cons_of_mem _ (List.mem_cons_of_mem _ h1)

theorem foldl_min_le_init : ∀ (t : List Int) (a : Int), t.foldl min a ≤ a
  | [], a => le_refl a
  | b :: t, a => le_trans (foldl_min_le_init t (min a b)) (min_le_left a b)

theorem foldl_min_le_mem : ∀ (t : List Int) (a x : Int), x ∈ t → t.foldl min a ≤ x
  | b :: t, a, x, hx => by
    rcases List.mem_cons.mp hx with h | h
    · subst h
      exact le_trans (foldl_min_le_init t (min a x)) (min_le_right a x)
    · exact foldl_min_le_mem t (min a b) x h

theorem foldl_max_mem (t : List Int) (a : Int) : t.foldl max a ∈ a :: t := by
  induction t generalizing a with
  | nil => exact List.mem_singleton.mpr rfl
  | cons b t ih =>
    have h := ih (max a b)
    rcases List.mem_cons.mp h with h1 | h1
    · rcases max_choice a b with h2 | h2 <;> rw [List.foldl_cons, h1, h2]
      · exact List.mem_cons_self _ _
      · exact List.mem_cons_of_mem _ (List.mem_cons_self _ _)
    · exact List.mem_cons_of_mem _ (List.mem_cons_of_mem _ h1)

theorem le_foldl_max_init : ∀ (t : List Int) (a : Int), a ≤ t.foldl max a
  | [], a => le_refl a
  | b :: t, a => le_trans (le_max_left a b) (le_foldl_max_init t (max a b))

theorem mem_le_foldl_max : ∀ (t : List Int) (a x : Int), x ∈ t → x ≤ t.foldl max a
  | b :: t, a, x, hx => by
    rcases List.mem_cons.mp hx with h | h
    · subst h
      exact le_trans (le_max_right a x) (le_foldl_max_init t (max a x))
    · exact mem_le_foldl_max t (max a b) x h

theorem listMinD_mem (l : List Int) (h : l ≠ []) : listMinD l 0 ∈ l := by
  cases l with
  | nil => exact absurd rfl h
  | cons a t => exact foldl_min_mem t a

theorem listMinD_le (l : List Int) : ∀ x ∈ l, listMinD l 0 ≤ x := by
  cases l with
  | nil => intro x hx; cases hx
  | cons a t =>
    intro x hx
    rcases List.mem_cons.mp hx with h | h
    · subst h; exact foldl_min_le_init t x
    · exact foldl_min_le_mem t a x h

theorem listMaxD_mem (l : List Int) (h : l ≠ []) : listMaxD l 0 ∈ l := by
  cases l with
  | nil => exact absurd rfl h
  | cons a t => exact foldl_max_mem t a

theorem le_listMaxD (l : List Int) : ∀ x ∈ l, x ≤ listMaxD l 0 := by
  cases l with
  | nil => intro x hx; cases hx
  | cons a t =>
    intro x hx
    rcases List.mem_cons.mp hx with h | h
    · subst h; exact le_foldl_max_init t x
    · exact mem_le_foldl_max t a x h

theorem sorted_le_getLastD (s : List Int) (hs : List.Sorted (· ≤ ·) s) :
    ∀ x ∈ s, x ≤ s.getLastD 0 := by
  induction s with
  | nil => intro x hx; cases hx
  | cons a t ih =>
    intro x hx
    cases t with
    | nil => rw [List.mem_singleton.mp hx]; exact le_refl _
    | cons b t2 =>
      rw [getLastD_cons_cons]
      rcases List.mem_cons.mp hx with h1 | h1
      · subst h1
        have hmem : (b :: t2).getLastD 0 ∈ b :: t2 := getLastD_mem _ (by simp)
        exact List.rel_of_sorted_cons hs _ hmem
      · exact ih hs.of_cons x h1

theorem sorted_headD_eq_min (nl : List Int) (hne : nl ≠ []) :
    (List.insertionSort (· ≤ ·) nl).headD 0 = listMinD nl 0 := by
  have hperm : (List.insertionSort (· ≤ ·) nl).Perm nl :=
    List.perm_insertionSort _ _
  have hsort : List.Sorted (· ≤ ·) (List.insertionSort (· ≤ ·) nl) :=
    List.sorted_insertionSort _ _
  rcases hs : List.insertionSort (· ≤ ·) nl with _ | ⟨c, s2⟩
  · rw [hs] at hperm
    exact absurd (List.Perm.eq_nil hperm.symm) hne
  · rw [hs] at hperm hsort
    have hminmem : listMinD nl 0 ∈ c :: s2 :=
      hperm.mem_iff.mpr (listMinD_mem nl hne)
    have h1 : c ≤ listMinD nl 0 := by
      rcases List.mem_cons.mp hminmem with h | h
      · rw [h]
      · exact List.rel_of_sorted_cons hsort _ h
    have h2 : listMinD nl 0 ≤ c :=
      listMinD_le nl c (hperm.mem_iff.mp (List.mem_cons_self _ _))
    exact le_antisymm h1 h2

theorem sorted_getLastD_eq_max (nl : List Int) (hne : nl ≠ []) :
    (List.insertionSort (· ≤ ·) nl).getLastD 0 = listMaxD nl 0 := by
  have hperm : (List.insertionSort (· ≤ ·) nl).Perm nl :=
    List.perm_insertionSort _ _
  have hsort : List.Sorted (· ≤ ·) (List.insertionSort (· ≤ ·) nl) :=
    List.sorted_insertionSort _ _
  have hne2 : List.insertionSort (· ≤ ·) nl ≠ [] := by
    intro h
    rw [h] at hperm
    exact hne (List.Perm.eq_nil hperm.symm)
  have hlastmem : (List.insertionSort (· ≤ ·) nl).getLastD 0 ∈ nl :=
    hperm.mem_iff.mp (getLastD_mem _ hne2)
  have hmaxmem : listMaxD nl 0 ∈ List.insertionSort (· ≤ ·) nl :=
    hperm.mem_iff.mpr (listMaxD_mem nl hne)
  exact le_antisymm (le_listMaxD nl _ hlastmem)
    (sorted_le_getLastD _ hsort _ hmaxmem)

/-- C1 counterexample: on the contact-date list (1970-01-01, 1970-01-01,
1970-01-10) — the shape of the repo's own dedupe test data — the code
keeps duplicate date-only values and returns 4.5 (the value the repo test
asserts for the non-dedup path), while the claim's distinct-dates rule
(`avgIntervalDaysClaimed`, written from the claim's wording) predicts 9.
So `avg_interval_days` is not computed over distinct dates. -/
theorem c1_counterexample :
    averageIntervalDays [0, 0, 777600] = 9 / 2 ∧
    avgIntervalDaysClaimed [0, 0, 777600] = 9 ∧
    (9 / 2 : ℚ) ≠ 9 := by
  refine ⟨?_, ?_, by norm_num⟩
  · unfold averageIntervalDays
    norm_num [normalizedDates, dateOnly, goZeroTime, secPerDay, List.filter,
      List.insertionSort, List.orderedInsert, consecDayDiffs, wholeDays,
      round1, roundHalfAwayFromZero, (by decide : Int.fdiv 777600 86400 = 9),
      (by decide : Int.tdiv 777600 86400 = 9)]
  · have h1 : (normalizedDates [0, 0, 777600]).dedup = [0, 777600] := by decide
    have h2 : List.insertionSort (· ≤ ·) [0, 777600] = [(0 : Int), 777600] := by
      decide
    have h3 : consecDayDiffs [(0 : Int), 777600] = 9 := by decide
    unfold avgIntervalDaysClaimed
    rw [h1]
    norm_num [h2, h3, round1, roundHalfAwayFromZero]

/-- C1 (amended): duplicates are NOT removed.  For every date list whose
normalization (zero values dropped, date-only projection, duplicates
retained) has at least 2 entries, `avg_interval_days` equals the whole-day
span between the largest and smallest normalized date, divided by
(number of normalized entries, counted with multiplicity, − 1), rounded to
one decimal with round-half-away-from-zero; the consecutive-difference sum
over the ascending sort telescopes to that span. -/
theorem c1_avgInterval_span (dates : List Int)
    (h2 : 2 ≤ (normalizedDates dates).length) :
    averageIntervalDays dates =
      round1 ((((listMaxD (normalizedDates dates) 0
            - listMinD (normalizedDates dates) 0) : Int) : ℚ)
          / ((secPerDay : Int) : ℚ)
        / (((normalizedDates dates).length : ℚ) - 1)) := by
  have hlenfle : (normalizedDates dates).length ≤ dates.length := by
    unfold normalizedDates
    rw [List.length_map]
    exact List.length_filter_le _ _
  have hne : normalizedDates dates ≠ [] := by
    intro h
    rw [h] at h2
    simp at h2
  have hdvdall : ∀ x ∈ normalizedDates dates, secPerDay ∣ x := by
    intro x hx
    unfold normalizedDates at hx
    rcases List.mem_map.mp hx with ⟨y, _, rfl⟩
    exact secPerDay_dvd_dateOnly y
  simp only [averageIntervalDays]
  rw [if_neg (by omega : ¬ dates.length < 2),
    if_neg (by omega : ¬ (normalizedDates dates).length < 2),
    if_neg (by omega : ¬ (normalizedDates dates).length - 1 = 0)]
  congr 1
  have hdvd : ∀ x ∈ List.insertionSort (· ≤ ·) (normalizedDates dates),
      secPerDay ∣ x := by
    intro x hx
    exact hdvdall x ((List.perm_insertionSort _ _).mem_iff.mp hx)
  rw [consecDayDiffs_telescope _ hdvd, sorted_getLastD_eq_max _ hne,
    sorted_headD_eq_min _ hne]
  obtain ⟨k, hk⟩ : secPerDay ∣ (listMaxD (normalizedDates dates) 0
      - listMinD (normalizedDates dates) 0) :=
    dvd_sub (hdvdall _ (listMaxD_mem _ hne)) (hdvdall _ (listMinD_mem _ hne))
  rw [hk]
  unfold wholeDays
  rw [Int.mul_tdiv_cancel_left _ (by decide)]
  have hlen1 : 1 ≤ (normalizedDates dates).length := by omega
  have hcast : (((normalizedDates dates).length - 1 : ℕ) : ℚ)
      = ((normalizedDates dates).length : ℚ) - 1 := by
    push_cast [Nat.cast_sub hlen1]
    ring
  rw [hcast]
  have h86 : ((secPerDay : Int) : ℚ) ≠ 0 := by norm_num [secPerDay]
  have hlq : ((normalizedDates dates).length : ℚ) - 1 ≠ 0 := by
    have : (2 : ℚ) ≤ ((normalizedDates dates).length : ℚ) := by
      exact_mod_cast h2
    intro hzero
    nlinarith
  field_simp

/-- Witness for the amended C1 at dates (1970-01-02, 1970-01-01,
1970-01-10). -/
theorem c1_avgInterval_span_witness :
    2 ≤ (normalizedDates [86400, 0, 777600]).length ∧
    averageIntervalDays [86400, 0, 777600] =
      round1 ((((listMaxD (normalizedDates [86400, 0, 777600]) 0
            - listMinD (normalizedDates [86400, 0, 777600]) 0) : Int) : ℚ)
          / ((secPerDay : Int) : ℚ)
        / (((normalizedDates [86400, 0, 777600]).length : ℚ) - 1)) :=
  ⟨by decide, c1_avgInterval_span _ (by decide)⟩

/-- C5: for non-negative `gap_days`, positive `cadence_days` and positive
`due_window_days`, the tier classifier returns `on_track` iff
`gap ≤ cadence`, `due_soon` iff `cadence < gap ≤ cadence + window`,
`overdue` iff `cadence + window < gap ≤ 2·cadence`, and `critical` in the
remaining case (`gap` beyond both `cadence + window` and `2·cadence`). -/
theorem c5_gapTier_boundaries (gap cadenceDays dueWindowDays : Int)
    (hg : 0 ≤ gap) (hc : 0 < cadenceDays) (hw : 0 < dueWindowDays) :
    (gapTier gap cadenceDays dueWindowDays = "on_track" ↔ gap ≤ cadenceDays) ∧
    (gapTier gap cadenceDays dueWindowDays = "due_soon" ↔
      cadenceDays < gap ∧ gap ≤ cadenceDays + dueWindowDays) ∧
    (gapTier gap cadenceDays dueWindowDays = "overdue" ↔
      cadenceDays + dueWindowDays < gap ∧ gap ≤ 2 * cadenceDays) ∧
    (gapTier gap cadenceDays dueWindowDays = "critical" ↔
      cadenceDays + dueWindowDays < gap ∧ 2 * cadenceDays < gap) := by
  unfold gapTier
  split_ifs with h1 h2 h3 <;> refine ⟨?_, ?_, ?_, ?_⟩ <;> simp_all <;> omega

/-- Witness for C5 at `gap = 40`, `cadence = 30`, `window = 15`. -/
theorem c5_gapTier_boundaries_witness :
    (gapTier 40 30 15 = "on_track" ↔ (40 : Int) ≤ 30) ∧
    (gapTier 40 30 15 = "due_soon" ↔ (30 : Int) < 40 ∧ (40 : Int) ≤ 30 + 15) ∧
    (gapTier 40 30 15 = "overdue" ↔ (30 : Int) + 15 < 40 ∧ (40 : Int) ≤ 2 * 30) ∧
    (gapTier 40 30 15 = "critical" ↔ (30 : Int) + 15 < 40 ∧ 2 * 30 < (40 : Int)) :=
  c5_gapTier_boundaries 40 30 15 (by decide) (by decide) (by decide)

/-- C10: when the due window is at least the cadence, the interval
`(cadence + window, 2·cadence]` is empty, so `gapTier` never returns
`overdue`. -/
theorem c10_no_overdue_tier (gap cadenceDays dueWindowDays : Int)
    (hc : 0 < cadenceDays) (hw : cadenceDays ≤ dueWindowDays) :
    gapTier gap cadenceDays dueWindowDays ≠ "overdue" := by
  unfold gapTier
  split_ifs with h1 h2 h3
  · decide
  · decide
  · intro _; omega
  · decide

/-- Witness for C10 at `gap = 100`, `cadence = 30`, `window = 30`. -/
theorem c10_no_overdue_tier_witness : gapTier 100 30 30 ≠ "overdue" :=
  c10_no_overdue_tier 100 30 30 (by decide) (by decide)

/-- C7: for non-negative gap and positive cadence, `missedCadences` is 0
when `gap ≤ cadence` and otherwise the integer ceiling of
`(gap − cadence) / cadence`. -/
theorem c7_missedCadences_ceiling (gap cadenceDays : Int)
    (hg : 0 ≤ gap) (hc : 0 < cadenceDays) :
    missedCadences gap cadenceDays =
      if gap ≤ cadenceDays then 0
      else ⌈(((gap - cadenceDays : Int)) : ℚ) / ((cadenceDays : Int) : ℚ)⌉ := by
  unfold missedCadences
  rw [if_neg (by omega : ¬ cadenceDays ≤ 0)]
  by_cases hle : gap ≤ cadenceDays
  · rw [if_pos hle, if_pos hle]
  · rw [if_neg hle, if_neg hle]
    have ha : (0 : Int) < gap - cadenceDays := by omega
    have hnn : (0 : Int) ≤ gap - cadenceDays + cadenceDays - 1 := by omega
    rw [Int.tdiv_eq_ediv hnn (le_of_lt hc)]
    set a := gap - cadenceDays with hadef
    set q := (a + cadenceDays - 1) / cadenceDays with hqdef
    have h1 : gap - cadenceDays + cadenceDays - 1 = a + cadenceDays - 1 := by omega
    have hmod1 : 0 ≤ (a + cadenceDays - 1) % cadenceDays :=
      Int.emod_nonneg _ (by omega)
    have hmod2 : (a + cadenceDays - 1) % cadenceDays < cadenceDays :=
      Int.emod_lt_of_pos _ hc
    have hdm : cadenceDays * q + (a + cadenceDays - 1) % cadenceDays
        = a + cadenceDays - 1 := Int.ediv_add_emod _ _
    have hql : cadenceDays * (q - 1) = cadenceDays * q - cadenceDays := by ring
    have hub : a ≤ cadenceDays * q := by omega
    have hlb : cadenceDays * (q - 1) < a := by omega
    have hcq : (0 : ℚ) < ((cadenceDays : Int) : ℚ) := by exact_mod_cast hc
    symm
    rw [Int.ceil_eq_iff]
    constructor
    · rw [lt_div_iff hcq]
      have hlbq : ((cadenceDays * (q - 1) : Int) : ℚ) < ((a : Int) : ℚ) := by
        exact_mod_cast hlb
      push_cast at hlbq ⊢
      linarith
    · rw [div_le_iff hcq]
      have hubq : ((a : Int) : ℚ) ≤ ((cadenceDays * q : Int) : ℚ) := by
        exact_mod_cast hub
      push_cast at hubq ⊢
      linarith

/-- Witness for C7 at `gap = 100`, `cadence = 30`. -/
theorem c7_missedCadences_ceiling_witness :
    missedCadences 100 30 =
      if (100 : Int) ≤ 30 then 0
      else ⌈(((100 - 30 : Int)) : ℚ) / ((30 : Int) : ℚ)⌉ :=
  c7_missedCadences_ceiling 100 30 (by decide) (by decide)

/-- C3 (amended): a row with a non-empty entity id and a parseable date is
counted as future — with `future_rows` incremented exactly once and the
row excluded from everything else (the accumulator map and the invalid
counter are untouched) — if and only if its raw parsed timestamp
(time-of-day retained, main.go:307) is after the date-only as-of value.
The row's own date is NOT projected to date-only first, so a row on the
as-of calendar day with a positive time-of-day still counts as future. -/
theorem c3_future_row_rule (asOf : Int) (dedupeDay : Bool) (st : IngestState)
    (row : Row) (d : Int) (hid : row.scholarID ≠ "") (hd : row.date = some d) :
    (d > dateOnly asOf →
      processRow (dateOnly asOf) dedupeDay st row
        = { st with futureRows := st.futureRows + 1 }) ∧
    (¬ d > dateOnly asOf →
      (processRow (dateOnly asOf) dedupeDay st row).futureRows = st.futureRows ∧
      (processRow (dateOnly asOf) dedupeDay st row).invalidRows = st.invalidRows) := by
  unfold processRow
  rw [if_neg hid, hd]
  dsimp only
  constructor
  · intro h
    rw [if_pos h]
  · intro h
    rw [if_neg h]
    exact ⟨rfl, rfl⟩

/-- Witness for the amended C3: a row dated 1970-01-02 against an as-of of
1970-01-01. -/
theorem c3_future_row_rule_witness :
    ((86400 : Int) > dateOnly 0 →
      processRow (dateOnly 0) false ⟨[], 0, 0⟩ ⟨"S", some 86400, "", "", ""⟩
        = { (⟨[], 0, 0⟩ : IngestState) with futureRows := 0 + 1 }) ∧
    (¬ (86400 : Int) > dateOnly 0 →
      (processRow (dateOnly 0) false ⟨[], 0, 0⟩ ⟨"S", some 86400, "", "", ""⟩).futureRows = 0 ∧
      (processRow (dateOnly 0) false ⟨[], 0, 0⟩ ⟨"S", some 86400, "", "", ""⟩).invalidRows = 0) :=
  c3_future_row_rule 0 false ⟨[], 0, 0⟩ ⟨"S", some 86400, "", "", ""⟩ 86400
    (by decide) rfl

/-- C3 counterexample: as-of is 1970-01-01 (midnight); the row's date
parses to 1970-01-01T01:00:00 — the SAME calendar day as as-of — yet the
row is counted as future (and excluded from the aggregates), because the
check at main.go:307 compares the raw parsed timestamp against the
date-only as-of.  The claim predicts such a row is never future. -/
theorem c3_counterexample :
    dateOnly 3600 = dateOnly 0 ∧
    (buildReport [⟨"S", some 3600, "", "", ""⟩] 0 30 15 10 false).summary.futureRows = 1 ∧
    (buildReport [⟨"S", some 3600, "", "", ""⟩] 0 30 15 10 false).summary.totalScholars = 0 := by
  refine ⟨by decide, ?_, ?_⟩ <;> decide

/-- C6 (amended): the ingestion update rules, for row dates strictly after
the Go zero timestamp (any date from year 1 on; the restriction is needed
because the zero value doubles as the "unset" sentinel and is itself a
parseable date).  On a day-duplicate with dedupe on: contact count,
interval history, first contact and the channel histogram are untouched,
and the `last*` triple is updated exactly when the row's date is ≥ the
current last contact.  On the non-duplicate path the `last*` triple is
updated exactly when the row's date is strictly greater. -/
theorem c6_update_rules (sch : ScholarStats) (d : Int) (channel status : String)
    (hd : goZeroTime < d) :
    (dateOnly d ∈ sch.contactDates →
      ((updateScholar true sch d channel status).contactCount = sch.contactCount ∧
       (updateScholar true sch d channel status).contacts = sch.contacts ∧
       (updateScholar true sch d channel status).firstContact = sch.firstContact ∧
       (updateScholar true sch d channel status).channels = sch.channels ∧
       (sch.lastContact ≤ d →
         (updateScholar true sch d channel status).lastContact = d ∧
         (updateScholar true sch d channel status).lastChannel = channel ∧
         (updateScholar true sch d channel status).lastStatus = status) ∧
       (d < sch.lastContact →
         (updateScholar true sch d channel status).lastContact = sch.lastContact ∧
         (updateScholar true sch d channel status).lastChannel = sch.lastChannel ∧
         (updateScholar true sch d channel status).lastStatus = sch.lastStatus))) ∧
    (∀ dedupeDay : Bool, ¬ (dedupeDay = true ∧ dateOnly d ∈ sch.contactDates) →
      ((sch.lastContact < d →
         (updateScholar dedupeDay sch d channel status).lastContact = d ∧
         (updateScholar dedupeDay sch d channel status).lastChannel = channel ∧
         (updateScholar dedupeDay sch d channel status).lastStatus = status) ∧
       (d ≤ sch.lastContact →
         (updateScholar dedupeDay sch d channel status).lastContact = sch.lastContact ∧
         (updateScholar dedupeDay sch d channel status).lastChannel = sch.lastChannel ∧
         (updateScholar dedupeDay sch d channel status).lastStatus = sch.lastStatus))) := by
  constructor
  · intro hmem
    unfold updateScholar
    rw [if_pos ⟨rfl, hmem⟩]
    by_cases hcond : sch.lastContact = goZeroTime ∨ d > sch.lastContact ∨ d = sch.lastContact
    · rw [if_pos hcond]
      refine ⟨rfl, rfl, rfl, rfl, fun _ => ⟨rfl, rfl, rfl⟩, fun hlt => ?_⟩
      exfalso
      rcases hcond with h | h | h <;> omega
    · rw [if_neg hcond]
      push_neg at hcond
      refine ⟨rfl, rfl, rfl, rfl, fun hle => ?_, fun _ => ⟨rfl, rfl, rfl⟩⟩
      exfalso
      omega
  · intro dedupeDay hnot
    unfold updateScholar
    rw [if_neg hnot]
    refine ⟨fun h => ?_, fun h => ?_⟩
    · simp only [apply_ite ScholarStats.lastContact, apply_ite ScholarStats.lastChannel,
        apply_ite ScholarStats.lastStatus, ite_self]
      refine ⟨?_, ?_, ?_⟩ <;> rw [if_pos (Or.inr h)]
    · simp only [apply_ite ScholarStats.lastContact, apply_ite ScholarStats.lastChannel,
        apply_ite ScholarStats.lastStatus, ite_self]
      have hcond : ¬ (sch.lastContact = goZeroTime ∨ d > sch.lastContact) := by
        push_neg
        constructor <;> omega
      refine ⟨?_, ?_, ?_⟩ <;> rw [if_neg hcond]

/-- Witness for the amended C6: an accumulator that already saw day
1970-01-01 (last contact 01:00), receiving a same-day duplicate at 02:00:
the contact count is untouched but the last channel is refreshed. -/
theorem c6_update_rules_witness :
    (updateScholar true (⟨"S", "", "Email", "ok", 3600, 1, 3600, [], [3600], [0]⟩ : ScholarStats)
        7200 "SMS" "ok2").contactCount = 1 ∧
    (updateScholar true (⟨"S", "", "Email", "ok", 3600, 1, 3600, [], [3600], [0]⟩ : ScholarStats)
        7200 "SMS" "ok2").lastChannel = "SMS" := by
  have h := c6_update_rules ⟨"S", "", "Email", "ok", 3600, 1, 3600, [], [3600], [0]⟩
    7200 "SMS" "ok2" (by decide)
  have h1 := h.1 (by decide)
  exact ⟨h1.1, (h1.2.2.2.2.1 (by decide)).2.1⟩

/-- C6 counterexample: a single row dated exactly 0001-01-01T00:00:00
(the Go zero instant, which `parseDate` accepts from the string
0001-01-01).  On the non-duplicate path the claim allows a `last*` update
only when the row's date is strictly greater than the current last
contact; here the fresh accumulator's last contact is the zero value and
the row's date equals it — not strictly greater — yet the code takes the
`IsZero` branch at main.go:360 and installs the row's channel. -/
theorem c6_counterexample :
    (newStats "S").lastContact = goZeroTime ∧
    ¬ goZeroTime > goZeroTime ∧
    ((lookupStats (ingest [⟨"S", some goZeroTime, "", "Email", "ok"⟩] 0 false).stats "S").map
      ScholarStats.lastChannel) = some "Email" ∧
    ((lookupStats (ingest [⟨"S", some goZeroTime, "", "Email", "ok"⟩] 0 false).stats "S").map
      ScholarStats.lastContact) = some goZeroTime := by
  refine ⟨rfl, by decide, ?_, ?_⟩ <;> decide

/-- C4 (amended): for every input and every admissible map iteration
order, the top-gaps list is the `topN`-prefix of the `Scholars` list
(the whole list when `topN ≤ 0` or `topN ≥` count), and the `Scholars`
list is sorted by gap days descending and is a permutation of the
per-entity summaries.  The tie order among equal gaps is NOT the original
insertion order in general: it is inherited from the randomized map
iteration order feeding the non-stable `sort.Slice`. -/
theorem c4_topgaps_structure (rows : List Row)
    (asOf cadenceDays dueWindowDays topN : Int) (dedupeDay : Bool)
    (order : List String) :
    List.Sorted gapDesc
      (buildReportWithOrder rows asOf cadenceDays dueWindowDays topN dedupeDay order).scholars ∧
    (buildReportWithOrder rows asOf cadenceDays dueWindowDays topN dedupeDay order).scholars.Perm
      (scholarSummaries rows asOf cadenceDays dueWindowDays dedupeDay order) ∧
    (buildReportWithOrder rows asOf cadenceDays dueWindowDays topN dedupeDay order).topGaps =
      (if 0 < topN ∧ topN <
          ((buildReportWithOrder rows asOf cadenceDays dueWindowDays topN dedupeDay
            order).scholars.length : Int)
        then (buildReportWithOrder rows asOf cadenceDays dueWindowDays topN dedupeDay
            order).scholars.take topN.toNat
        else (buildReportWithOrder rows asOf cadenceDays dueWindowDays topN dedupeDay
            order).scholars) :=
  ⟨List.sorted_insertionSort gapDesc _, List.perm_insertionSort gapDesc _, rfl⟩

/-- C4 counterexample: two scholars A then B (insertion order) with equal
gaps; under the admissible iteration order [B, A] the produced top-gaps
tie order is [B, A] — not the original insertion order [A, B], so the
stable-by-insertion-order tie-break of the claim does not hold. -/
theorem c4_counterexample :
    insertionOrder (ingest [⟨"A", some 0, "", "", ""⟩, ⟨"B", some 0, "", "", ""⟩]
      (dateOnly 0) false) = ["A", "B"] ∧
    (buildReportWithOrder [⟨"A", some 0, "", "", ""⟩, ⟨"B", some 0, "", "", ""⟩]
        0 30 15 10 false ["B", "A"]).topGaps.map ScholarSummary.scholarID = ["B", "A"] ∧
    (["B", "A"] : List String) ≠ ["A", "B"] := by
  refine ⟨by decide, ?_, by decide⟩
  decide

theorem gapTier_cases (g c w : Int) :
    gapTier g c w = "on_track" ∨ gapTier g c w = "due_soon" ∨
    gapTier g c w = "overdue" ∨ gapTier g c w = "critical" := by
  unfold gapTier
  split_ifs <;> simp

theorem foldl_tierStep_sum : ∀ (l : List ScholarSummary)
    (_ : ∀ e ∈ l, e.tier = "on_track" ∨ e.tier = "due_soon" ∨
      e.tier = "overdue" ∨ e.tier = "critical") (acc : Nat × Nat × Nat × Nat),
    (l.foldl tierStep acc).1 + (l.foldl tierStep acc).2.1
      + (l.foldl tierStep acc).2.2.1 + (l.foldl tierStep acc).2.2.2
      = acc.1 + acc.2.1 + acc.2.2.1 + acc.2.2.2 + l.length
  | [], _, acc => by simp
  | e :: t, h, acc => by
    rw [List.foldl_cons,
      foldl_tierStep_sum t (fun x hx => h x (List.mem_cons_of_mem _ hx)) _]
    have he := h e (List.mem_cons_self _ _)
    unfold tierStep
    rcases he with h1 | h1 | h1 | h1 <;> rw [h1] <;> simp <;> omega

/-- C8: in every report, the four tier counts add up to the total scholar
count, because `gapTier` always returns one of the four tier labels. -/
theorem c8_tier_counts_sum (rows : List Row)
    (asOf cadenceDays dueWindowDays topN : Int) (dedupeDay : Bool) :
    (buildReport rows asOf cadenceDays dueWindowDays topN dedupeDay).summary.onTrackCount
      + (buildReport rows asOf cadenceDays dueWindowDays topN dedupeDay).summary.dueSoonCount
      + (buildReport rows asOf cadenceDays dueWindowDays topN dedupeDay).summary.overdueCount
      + (buildReport rows asOf cadenceDays dueWindowDays topN dedupeDay).summary.criticalCount
      = (buildReport rows asOf cadenceDays dueWindowDays topN dedupeDay).summary.totalScholars := by
  have hmem : ∀ e ∈ List.insertionSort gapDesc
      (scholarSummaries rows asOf cadenceDays dueWindowDays dedupeDay
        (insertionOrder (ingest rows (dateOnly asOf) dedupeDay))),
      e.tier = "on_track" ∨ e.tier = "due_soon" ∨
      e.tier = "overdue" ∨ e.tier = "critical" := by
    intro e he
    have he2 := (List.perm_insertionSort gapDesc _).mem_iff.mp he
    simp only [scholarSummaries] at he2
    rcases List.mem_filterMap.mp he2 with ⟨id, _, hsome⟩
    rcases Option.map_eq_some'.mp hsome with ⟨sch, _, hmk⟩
    rw [← hmk]
    exact gapTier_cases _ _ _
  have h := foldl_tierStep_sum _ hmem (0, 0, 0, 0)
  exact h.trans (Nat.zero_add _)

theorem sortInts_perm_eq {l1 l2 : List Int} (h : l1.Perm l2) :
    List.insertionSort (· ≤ ·) l1 = List.insertionSort (· ≤ ·) l2 :=
  List.eq_of_perm_of_sorted
    ((List.perm_insertionSort _ _).trans (h.trans (List.perm_insertionSort _ _).symm))
    (List.sorted_insertionSort _ _) (List.sorted_insertionSort _ _)

theorem summarizeGaps_perm {l1 l2 : List Int} (h : l1.Perm l2) :
    summarizeGaps l1 = summarizeGaps l2 := by
  cases hl1 : l1 with
  | nil =>
    rw [hl1] at h
    rw [List.Perm.eq_nil h.symm]
  | cons a t =>
    cases hl2 : l2 with
    | nil =>
      rw [hl2] at h
      exact absurd (List.Perm.eq_nil h) (by rw [hl1]; simp)
    | cons b t2 =>
      rw [hl1, hl2] at h
      simp only [summarizeGaps]
      rw [sortInts_perm_eq h]

theorem foldl_max_perm {l1 l2 : List Int} (h : l1.Perm l2) :
    ∀ b : Int, l1.foldl max b = l2.foldl max b := by
  induction h with
  | nil => intro b; rfl
  | cons x _ ih =>
    intro b
    simp only [List.foldl_cons]
    exact ih _
  | swap x y l =>
    intro b
    simp only [List.foldl_cons]
    rw [max_assoc, max_comm y x, ← max_assoc]
  | trans _ _ ih1 ih2 => intro b; exact (ih1 b).trans (ih2 b)

theorem tierStep_comm (acc : Nat × Nat × Nat × Nat) (x y : ScholarSummary) :
    tierStep (tierStep acc x) y = tierStep (tierStep acc y) x := by
  unfold tierStep
  split_ifs <;> rfl

theorem foldl_tierStep_perm {l1 l2 : List ScholarSummary} (h : l1.Perm l2) :
    ∀ acc, l1.foldl tierStep acc = l2.foldl tierStep acc := by
  induction h with
  | nil => intro acc; rfl
  | cons x _ ih =>
    intro acc
    simp only [List.foldl_cons]
    exact ih _
  | swap x y l =>
    intro acc
    simp only [List.foldl_cons]
    rw [tierStep_comm]
  | trans _ _ ih1 ih2 => intro acc; exact (ih1 acc).trans (ih2 acc)

theorem countTiers_perm {l1 l2 : List ScholarSummary} (h : l1.Perm l2) :
    countTiers l1 = countTiers l2 :=
  foldl_tierStep_perm h (0, 0, 0, 0)

theorem buildDueSummary_perm {l1 l2 : List ScholarSummary} (h : l1.Perm l2)
    (asOf : Int) : buildDueSummary l1 asOf = buildDueSummary l2 asOf := by
  unfold buildDueSummary
  apply List.map_congr_left
  intro d _
  rw [List.Perm.countP_eq _ h]

theorem buildRecencySummary_perm {l1 l2 : List ScholarSummary} (h : l1.Perm l2) :
    buildRecencySummary l1 = buildRecencySummary l2 := by
  unfold buildRecencySummary
  apply List.map_congr_left
  intro d _
  rw [List.Perm.countP_eq _ h]

/-- C2 (amended): the core introduces no randomness of its own — for a
fixed map iteration order the builder is a pure function — but Go
randomizes map iteration order and `sort.Slice` is not stable, so across
runs the Reports are only guaranteed to agree on the whole `ReportSummary`,
the due- and recency-bucket tables, and the `Scholars` list up to
permutation; the order of entries in `Scholars`/`TopGaps` (and of the
program/channel/status listings) can differ between runs. -/
theorem c2_order_invariance (rows : List Row)
    (asOf cadenceDays dueWindowDays topN : Int) (dedupeDay : Bool)
    (o1 o2 : List String) (hperm : o1.Perm o2) :
    (buildReportWithOrder rows asOf cadenceDays dueWindowDays topN dedupeDay o1).summary =
      (buildReportWithOrder rows asOf cadenceDays dueWindowDays topN dedupeDay o2).summary ∧
    (buildReportWithOrder rows asOf cadenceDays dueWindowDays topN dedupeDay o1).dueSummary =
      (buildReportWithOrder rows asOf cadenceDays dueWindowDays topN dedupeDay o2).dueSummary ∧
    (buildReportWithOrder rows asOf cadenceDays dueWindowDays topN dedupeDay o1).recencySummary =
      (buildReportWithOrder rows asOf cadenceDays dueWindowDays topN dedupeDay o2).recencySummary ∧
    (buildReportWithOrder rows asOf cadenceDays dueWindowDays topN dedupeDay o1).scholars.Perm
      (buildReportWithOrder rows asOf cadenceDays dueWindowDays topN dedupeDay o2).scholars := by
  have hs : (scholarSummaries rows asOf cadenceDays dueWindowDays dedupeDay o1).Perm
      (scholarSummaries rows asOf cadenceDays dueWindowDays dedupeDay o2) := by
    simp only [scholarSummaries]
    exact hperm.filterMap _
  have hsorted : (List.insertionSort gapDesc
      (scholarSummaries rows asOf cadenceDays dueWindowDays dedupeDay o1)).Perm
      (List.insertionSort gapDesc
        (scholarSummaries rows asOf cadenceDays dueWindowDays dedupeDay o2)) :=
    (List.perm_insertionSort _ _).trans (hs.trans (List.perm_insertionSort _ _).symm)
  refine ⟨?_, ?_, ?_, hsorted⟩
  · simp only [buildReportWithOrder]
    rw [summarizeGaps_perm (hs.map (fun s => s.gapDays)),
      List.Perm.sum_eq (hs.map (fun s => (s.missedCadences : ℚ))),
      foldl_max_perm (hs.map (fun s => s.missedCadences)) 0,
      countTiers_perm hsorted,
      List.length_insertionSort, List.length_insertionSort,
      hs.length_eq]
  · simp only [buildReportWithOrder]
    exact buildDueSummary_perm hsorted _
  · simp only [buildReportWithOrder]
    exact buildRecencySummary_perm hsorted

/-- Witness for the amended C2: two scholars with equal gaps, iterated in
the two possible orders; the summaries agree. -/
theorem c2_order_invariance_witness :
    (buildReportWithOrder [⟨"A", some 0, "", "", ""⟩, ⟨"B", some 0, "", "", ""⟩]
        0 30 15 10 false ["A", "B"]).summary =
      (buildReportWithOrder [⟨"A", some 0, "", "", ""⟩, ⟨"B", some 0, "", "", ""⟩]
        0 30 15 10 false ["B", "A"]).summary :=
  (c2_order_invariance [⟨"A", some 0, "", "", ""⟩, ⟨"B", some 0, "", "", ""⟩]
    0 30 15 10 false ["A", "B"] ["B", "A"] (by decide)).1

/-- C2 counterexample: the two orders [A, B] and [B, A] are both
admissible iterations of the accumulator map (they are permutations of
its key set), yet they produce different Report values — the `Scholars`
lists come out as [A, B] and [B, A] respectively, since the two scholars
tie on gap days.  So "byte-identical Report values" across runs fails:
Go's map iteration order is randomized per run and feeds the non-stable
`sort.Slice` at main.go:433. -/
theorem c2_counterexample :
    (["B", "A"] : List String).Perm
      (insertionOrder (ingest [⟨"A", some 0, "", "", ""⟩, ⟨"B", some 0, "", "", ""⟩]
        (dateOnly 0) false)) ∧
    buildReportWithOrder [⟨"A", some 0, "", "", ""⟩, ⟨"B", some 0, "", "", ""⟩]
        0 30 15 10 false ["A", "B"] ≠
      buildReportWithOrder [⟨"A", some 0, "", "", ""⟩, ⟨"B", some 0, "", "", ""⟩]
        0 30 15 10 false ["B", "A"] := by
  refine ⟨by decide, ?_⟩
  intro hcontra
  have h := congrArg (fun r => r.scholars.map ScholarSummary.scholarID) hcontra
  have h1 : (buildReportWithOrder [⟨"A", some 0, "", "", ""⟩, ⟨"B", some 0, "", "", ""⟩]
      0 30 15 10 false ["A", "B"]).scholars.map ScholarSummary.scholarID = ["A", "B"] := by
    decide
  have h2 : (buildReportWithOrder [⟨"A", some 0, "", "", ""⟩, ⟨"B", some 0, "", "", ""⟩]
      0 30 15 10 false ["B", "A"]).scholars.map ScholarSummary.scholarID = ["B", "A"] := by
    decide
  simp only at h
  rw [h1, h2] at h
  exact absurd h (by decide)

theorem lookup_upsert (stats : List (String × ScholarStats)) (id : String)
    (sch : ScholarStats) (id2 : String) :
    lookupStats (upsertStats stats id sch) id2 =
      if id = id2 then some sch else lookupStats stats id2 := by
  induction stats with
  | nil => simp [upsertStats, lookupStats]
  | cons kv rest ih =>
    obtain ⟨k, v⟩ := kv
    simp only [upsertStats, lookupStats]
    by_cases hk : k = id
    · subst hk
      rw [if_pos rfl]
      simp only [lookupStats]
      by_cases h2 : k = id2
      · simp [h2]
      · simp [h2]
    · rw [if_neg hk]
      simp only [lookupStats]
      by_cases h2 : k = id2
      · subst h2
        rw [if_pos rfl, if_pos rfl, if_neg (fun h => hk h.symm)]
      · rw [if_neg h2, if_neg h2, ih]

theorem updateScholar_OK (dedupe : Bool) (sch : ScholarStats) (d : Int)
    (ch stt : String) (hd : goZeroTime < d)
    (hsch : (sch.lastContact = goZeroTime ∧ sch.firstContact = goZeroTime ∧
        sch.contactDates = [])
      ∨ (1 ≤ sch.contactCount ∧ goZeroTime < sch.lastContact ∧
        goZeroTime < sch.firstContact)) :
    1 ≤ (updateScholar dedupe sch d ch stt).contactCount ∧
    goZeroTime < (updateScholar dedupe sch d ch stt).lastContact ∧
    goZeroTime < (updateScholar dedupe sch d ch stt).firstContact := by
  unfold updateScholar
  rcases hsch with ⟨hl, hf, hcd⟩ | ⟨hcount, hl, hf⟩
  · rw [hcd]
    rw [if_neg (by simp)]
    simp only [apply_ite ScholarStats.contactCount, apply_ite ScholarStats.lastContact,
      apply_ite ScholarStats.firstContact, ite_self]
    split_ifs <;> exact ⟨by omega, by omega, by omega⟩
  · simp only [apply_ite ScholarStats.contactCount, apply_ite ScholarStats.lastContact,
      apply_ite ScholarStats.firstContact, ite_self]
    split_ifs <;> exact ⟨by omega, by omega, by omega⟩

theorem processRow_OK (asOfD : Int) (dedupe : Bool) (st : IngestState)
    (row : Row) (hOK : statsOK st.stats) (hrow : rowDateOK row = true) :
    statsOK (processRow asOfD dedupe st row).stats := by
  unfold processRow
  by_cases hid : row.scholarID = ""
  · rw [if_pos hid]
    exact hOK
  · rw [if_neg hid]
    rcases hdate : row.date with _ | d
    · exact hOK
    · dsimp only
      by_cases hfut : d > asOfD
      · rw [if_pos hfut]
        exact hOK
      · rw [if_neg hfut]
        have hd : goZeroTime < d := by
          unfold rowDateOK at hrow
          rw [hdate] at hrow
          exact of_decide_eq_true hrow
        intro id2 sch2 hlook
        rw [lookup_upsert] at hlook
        by_cases heq : row.scholarID = id2
        · rw [if_pos heq] at hlook
          injection hlook with hlook
          subst hlook
          apply updateScholar_OK _ _ _ _ _ hd
          rcases hlk : lookupStats st.stats row.scholarID with _ | sch0
          · left
            by_cases hprog : row.program ≠ "" ∧
                ((none : Option ScholarStats).getD (newStats row.scholarID)).program = ""
            · rw [if_pos hprog]
              exact ⟨rfl, rfl, rfl⟩
            · rw [if_neg hprog]
              exact ⟨rfl, rfl, rfl⟩
          · right
            have h0 := hOK _ _ hlk
            by_cases hprog : row.program ≠ "" ∧
                ((some sch0).getD (newStats row.scholarID)).program = ""
            · rw [if_pos hprog]
              exact h0
            · rw [if_neg hprog]
              exact h0
        · rw [if_neg heq] at hlook
          exact hOK _ _ hlook

theorem foldl_processRow_OK (rows : List Row) (asOfD : Int) (dedupe : Bool) :
    ∀ st : IngestState, statsOK st.stats → rowDatesAfterZero rows = true →
    statsOK ((rows.foldl (processRow asOfD dedupe) st).stats) := by
  induction rows with
  | nil => intro st h _; exact h
  | cons r t ih =>
    intro st h hall
    rw [rowDatesAfterZero, List.all_cons, Bool.and_eq_true] at hall
    rw [List.foldl_cons]
    exact ih _ (processRow_OK asOfD dedupe st r h hall.1) hall.2

theorem ingest_OK (rows : List Row) (asOfD : Int) (dedupe : Bool)
    (hrows : rowDatesAfterZero rows = true) :
    statsOK (ingest rows asOfD dedupe).stats := by
  apply foldl_processRow_OK rows asOfD dedupe ⟨[], 0, 0⟩ _ hrows
  intro id sch h
  cases h

theorem dateOnly_addDays_gt_zero (t c : Int) (ht : goZeroTime < t)
    (hc : 0 < c) : goZeroTime < dateOnly (addDays t c) := by
  unfold dateOnly addDays secPerDay goZeroTime
  unfold goZeroTime at ht
  split_ifs with h
  · omega
  · rw [Int.fdiv_eq_ediv _ (by norm_num)]
    omega

theorem bucketDueLabel_ne_unknown (nd asOf : Int) (h : nd ≠ goZeroTime) :
    bucketDueLabel nd asOf ≠ "unknown" := by
  unfold bucketDueLabel
  rw [if_neg h]
  dsimp only
  split_ifs <;> decide

theorem bucketRecencyLabel_ne_unknown (e : ScholarSummary)
    (h : e.lastContact ≠ goZeroTime) : bucketRecencyLabel e ≠ "unknown" := by
  unfold bucketRecencyLabel
  rw [if_neg h]
  split_ifs <;> decide

theorem summaries_OK (rows : List Row) (asOf cadenceDays dueWindowDays : Int)
    (dedupeDay : Bool) (order : List String) (hc : 0 < cadenceDays)
    (hrows : rowDatesAfterZero rows = true) :
    ∀ e ∈ scholarSummaries rows asOf cadenceDays dueWindowDays dedupeDay order,
      1 ≤ e.contactCount ∧ goZeroTime < e.lastContact ∧
      goZeroTime < e.firstContact ∧ goZeroTime < e.nextDueDate := by
  intro e he
  simp only [scholarSummaries] at he
  rcases List.mem_filterMap.mp he with ⟨id, _, hsome⟩
  rcases Option.map_eq_some'.mp hsome with ⟨sch, hlk, hmk⟩
  have hOK := ingest_OK rows (dateOnly asOf) dedupeDay hrows _ _ hlk
  rw [← hmk]
  refine ⟨hOK.1, hOK.2.1, hOK.2.2, ?_⟩
  show goZeroTime < (if sch.lastContact = goZeroTime then goZeroTime
    else dateOnly (addDays sch.lastContact cadenceDays))
  rw [if_neg (by omega : ¬ sch.lastContact = goZeroTime)]
  exact dateOnly_addDays_gt_zero _ _ hOK.2.1 hc

/-- C9 (amended): when the cadence is positive and every parseable row
date is strictly after the Go zero timestamp (any real-world date), every
ScholarSummary has contact_count ≥ 1 and non-zero last/first contact, and
the unknown due and recency buckets are empty — the no-contact branches of
gap_days/next_due_date are then unreachable.  Without that restriction the
claim fails: 0001-01-01 is a parseable date equal to the zero sentinel. -/
theorem c9_no_unknown_buckets (rows : List Row)
    (asOf cadenceDays dueWindowDays topN : Int) (dedupeDay : Bool)
    (hc : 0 < cadenceDays) (hrows : rowDatesAfterZero rows = true) :
    ((buildReport rows asOf cadenceDays dueWindowDays topN dedupeDay).scholars.all
      scholarOkB) = true ∧
    ((buildReport rows asOf cadenceDays dueWindowDays topN dedupeDay).dueSummary.all
      dueBucketOkB) = true ∧
    ((buildReport rows asOf cadenceDays dueWindowDays topN dedupeDay).recencySummary.all
      recencyBucketOkB) = true := by
  have hOKall := summaries_OK rows asOf cadenceDays dueWindowDays dedupeDay
    (insertionOrder (ingest rows (dateOnly asOf) dedupeDay)) hc hrows
  have hsortmem : ∀ e ∈ List.insertionSort gapDesc
      (scholarSummaries rows asOf cadenceDays dueWindowDays dedupeDay
        (insertionOrder (ingest rows (dateOnly asOf) dedupeDay))),
      1 ≤ e.contactCount ∧ goZeroTime < e.lastContact ∧
      goZeroTime < e.firstContact ∧ goZeroTime < e.nextDueDate :=
    fun e he => hOKall e ((List.perm_insertionSort gapDesc _).mem_iff.mp he)
  refine ⟨?_, ?_, ?_⟩
  · show (List.insertionSort gapDesc
      (scholarSummaries rows asOf cadenceDays dueWindowDays dedupeDay
        (insertionOrder (ingest rows (dateOnly asOf) dedupeDay)))).all
        scholarOkB = true
    rw [List.all_eq_true]
    intro s hs
    have h := hsortmem s hs
    unfold scholarOkB
    exact decide_eq_true ⟨h.1, by omega, by omega⟩
  · show (buildDueSummary (List.insertionSort gapDesc
      (scholarSummaries rows asOf cadenceDays dueWindowDays dedupeDay
        (insertionOrder (ingest rows (dateOnly asOf) dedupeDay))))
          (dateOnly asOf)).all dueBucketOkB = true
    rw [List.all_eq_true]
    intro b hb
    unfold buildDueSummary at hb
    rcases List.mem_map.mp hb with ⟨d, _, hbd⟩
    unfold dueBucketOkB
    apply decide_eq_true
    intro hlab
    rw [← hbd] at hlab ⊢
    simp only at hlab ⊢
    rw [hlab]
    rw [List.countP_eq_zero]
    intro e he
    have h := hsortmem e he
    simp only [decide_eq_true_eq]
    exact bucketDueLabel_ne_unknown _ _ (by omega)
  · show (buildRecencySummary (List.insertionSort gapDesc
      (scholarSummaries rows asOf cadenceDays dueWindowDays dedupeDay
        (insertionOrder (ingest rows (dateOnly asOf) dedupeDay))))).all
        recencyBucketOkB = true
    rw [List.all_eq_true]
    intro b hb
    unfold buildRecencySummary at hb
    rcases List.mem_map.mp hb with ⟨d, _, hbd⟩
    unfold recencyBucketOkB
    apply decide_eq_true
    intro hlab
    rw [← hbd] at hlab ⊢
    simp only at hlab ⊢
    rw [hlab]
    rw [List.countP_eq_zero]
    intro e he
    have h := hsortmem e he
    simp only [decide_eq_true_eq]
    exact bucketRecencyLabel_ne_unknown _ (by omega)

/-- Witness for the amended C9: one scholar contacted on 1970-01-02,
reported as of 1970-01-03. -/
theorem c9_no_unknown_buckets_witness :
    ((buildReport [⟨"S", some 86400, "Alpha", "Email", "ok"⟩] 172800 30 15 10
      false).scholars.all scholarOkB) = true ∧
    ((buildReport [⟨"S", some 86400, "Alpha", "Email", "ok"⟩] 172800 30 15 10
      false).dueSummary.all dueBucketOkB) = true ∧
    ((buildReport [⟨"S", some 86400, "Alpha", "Email", "ok"⟩] 172800 30 15 10
      false).recencySummary.all recencyBucketOkB) = true :=
  c9_no_unknown_buckets [⟨"S", some 86400, "Alpha", "Email", "ok"⟩]
    172800 30 15 10 false (by decide) (by decide)

/-- C9 counterexample: the single row dated 0001-01-01 (the Go zero
instant, accepted by `parseDate`) produces a ScholarSummary whose
last_contact IS the zero value, and the unknown recency bucket has count
1, contradicting the claim that the unknown buckets are always empty and
last_contact is always non-zero. -/
theorem c9_counterexample :
    ((buildReport [⟨"S", some goZeroTime, "", "Email", "ok"⟩] 0 30 15 10
      false).scholars.map ScholarSummary.lastContact) = [goZeroTime] ∧
    (((buildReport [⟨"S", some goZeroTime, "", "Email", "ok"⟩] 0 30 15 10
      false).recencySummary.filter (fun b => b.label == "unknown")).map
        RecencyBucket.count) = [1] := by
  constructor <;> decide

end GapAudit
